import Mathlib

/-!
Shallow embedding of the `pagi-external-gateway` service
(`src/services/pagi-external-gateway/src/{main,redis_registry,shared_lib,wasm_plugin,wasm_component_plugin,auto_discover}.rs`).

Modelling conventions:
* Rust `Uuid` values are modelled by a wrapper around `Nat`; `Uuid::nil()` is `Uuid.nil`.
* `serde_json::Value` is modelled by the inductive `Json`; `serde_json::to_string`
  is modelled by `Json.serialize`, a compact serializer with serde-style string
  escaping (numbers are restricted to integers; floating-point formatting is out
  of scope for every claim considered here).
* Rust `HashMap`s are modelled by association lists with replace-in-place
  insertion (`ainsert`); all statements about them are lookup-extensional, so
  iteration order never matters.
* Redis is modelled by `RedisStore`: the hash at key `pagi:tools:global` and the
  hashes at keys `pagi:tools:twin:<uuid>` are kept structurally, and values are
  stored as `ToolSchema` directly (the serde JSON round trip through the hash
  value is faithful for `ToolSchema` and is elided).  Connection or command
  failure is modelled by the `available` flag.
* Fallible I/O performed by executors (HTTP requests, dynamic-library calls,
  WebAssembly instantiation) is modelled by explicit environment records whose
  fields are total functions returning `Except`/`Option` results.
-/

/-- Agent identifier (`uuid::Uuid`). `Uuid.nil` models `Uuid::nil()`. -/
structure Uuid where
  val : Nat
deriving DecidableEq, Repr

/-- `Uuid::nil()` — the distinguished global scope identifier. -/
def Uuid.nil : Uuid := ⟨0⟩

/-- `fn global_twin_id() -> TwinId { TwinId(Uuid::nil()) }` from `main.rs`. -/
def global_twin_id : Uuid := Uuid.nil

/-- Model of `serde_json::Value` (numbers restricted to integers). -/
inductive Json where
  | null : Json
  | bool (b : Bool) : Json
  | num (n : Int) : Json
  | str (s : String) : Json
  | arr (xs : List Json) : Json
  | obj (kvs : List (String × Json)) : Json

/-- The NUL character, which a Rust `CString` cannot contain. -/
def nulChar : Char := Char.ofNat 0

/-- Lowercase hexadecimal digit, as used by serde_json `\u00XX` escapes. -/
def hexDigit (n : Nat) : Char :=
  if n < 10 then Char.ofNat (48 + n) else Char.ofNat (87 + n)

/-- Decimal digit character. -/
def digitCh (d : Nat) : Char := Char.ofNat (48 + d)

/-- Decimal digits of a natural number, most significant first. -/
def natDigits (n : Nat) : List Char :=
  if h : n < 10 then [digitCh n]
  else natDigits (n / 10) ++ [digitCh (n % 10)]
decreasing_by
  exact Nat.div_lt_self (by omega) (by omega)

/-- Decimal rendering of an integer (Rust `i64` `Display`). -/
def intChars : Int → List Char
  | Int.ofNat m => natDigits m
  | Int.negSucc m => '-' :: natDigits (m + 1)

/-- serde_json escaping for one character inside a JSON string literal. -/
def escChar (c : Char) : List Char :=
  if c = '"' then ['\\', '"']
  else if c = '\\' then ['\\', '\\']
  else if c = Char.ofNat 8 then ['\\', 'b']
  else if c = Char.ofNat 9 then ['\\', 't']
  else if c = Char.ofNat 10 then ['\\', 'n']
  else if c = Char.ofNat 12 then ['\\', 'f']
  else if c = Char.ofNat 13 then ['\\', 'r']
  else if c.toNat < 32 then
    ['\\', 'u', '0', '0', hexDigit (c.toNat / 16), hexDigit (c.toNat % 16)]
  else [c]

/-- serde_json escaping of a whole string body. -/
def escapeList : List Char → List Char
  | [] => []
  | c :: cs => escChar c ++ escapeList cs

mutual

/-- Characters of the compact serde_json rendering of a value. -/
def Json.serializeChars : Json → List Char
  | Json.null => ['n', 'u', 'l', 'l']
  | Json.bool true => ['t', 'r', 'u', 'e']
  | Json.bool false => ['f', 'a', 'l', 's', 'e']
  | Json.num n => intChars n
  | Json.str s => '"' :: (escapeList s.data ++ ['"'])
  | Json.arr xs => '[' :: (serializeArr xs ++ [']'])
  | Json.obj kvs => Char.ofNat 123 :: (serializeObj kvs ++ [Char.ofNat 125])

/-- Comma-separated serialization of array elements. -/
def serializeArr : List Json → List Char
  | [] => []
  | [x] => Json.serializeChars x
  | x :: y :: xs => Json.serializeChars x ++ ',' :: serializeArr (y :: xs)

/-- Comma-separated serialization of object members. -/
def serializeObj : List (String × Json) → List Char
  | [] => []
  | [kv] => serializeKV kv
  | kv :: kv2 :: rest => serializeKV kv ++ ',' :: serializeObj (kv2 :: rest)

/-- Serialization of a single `"key":value` member. -/
def serializeKV : String × Json → List Char
  | (k, v) => '"' :: (escapeList k.data ++ '"' :: ':' :: Json.serializeChars v)

end

/-- `serde_json::to_string` (compact form). -/
def Json.serialize (j : Json) : String := String.mk j.serializeChars

/-- Tool registration record (`struct ToolSchema` in `main.rs`). -/
structure ToolSchema where
  name : String
  description : String
  plugin_url : String
  endpoint : String
  parameters : Json

/-- Association-list lookup, modelling `HashMap::get`. -/
def alookup {κ α : Type} [DecidableEq κ] : List (κ × α) → κ → Option α
  | [], _ => none
  | (k, v) :: rest, key => if k = key then some v else alookup rest key

/-- Association-list insert with replace-in-place, modelling `HashMap::insert`. -/
def ainsert {κ α : Type} [DecidableEq κ] : List (κ × α) → κ → α → List (κ × α)
  | [], key, a => [(key, a)]
  | (k, v) :: rest, key, a =>
    if k = key then (key, a) :: rest else (k, v) :: ainsert rest key a

/-- The in-memory registry `HashMap<Uuid, HashMap<String, ToolSchema>>`. -/
abbrev Registry : Type := List (Uuid × List (String × ToolSchema))

/-- `reg.entry(u).or_default().insert(n, t)` from `upsert_tool` in `main.rs`. -/
def entryInsert (reg : Registry) (u : Uuid) (n : String) (t : ToolSchema) : Registry :=
  ainsert reg u (ainsert ((alookup reg u).getD []) n t)

/-- Model of the Redis persistence layer used by `redis_registry.rs`:
the hash at key `pagi:tools:global` (`global`) and the hashes at keys
`pagi:tools:twin:<uuid>` (`twins`).  `available = false` models a failing
connection or command, the error path of `get_multiplexed_tokio_connection`
and of `hset`. -/
structure RedisStore where
  available : Bool
  global : List (String × ToolSchema)
  twins : List (Uuid × List (String × ToolSchema))

/-- The gateway state (`struct GatewayState` in `main.rs`): the in-memory
registry plus the Redis handle (modelled by the store contents). -/
structure GatewayState where
  registry : Registry
  store : RedisStore

/-- `persist_tool` from `redis_registry.rs`: `twin_id = None` writes the tool
into the global hash, `twin_id = Some(u)` into the hash for scope `u`
(`hset(key, tool.name, tool_json)`).  Returns the updated store or the
connection error. -/
def persist_tool (store : RedisStore) (twin_id : Option Uuid) (tool : ToolSchema) :
    Except String RedisStore :=
  if store.available = false then Except.error "redis connection failed"
  else
    match twin_id with
    | none => Except.ok { store with global := ainsert store.global tool.name tool }
    | some u => Except.ok { store with twins := entryInsert store.twins u tool.name tool }

/-- `load_group` models the inner loops of `load_all_tools`: insert every
field of one Redis hash into the registry under scope `u`
(`registry.entry(u).or_default().insert(name, tool)`). -/
def load_group (reg : Registry) (u : Uuid) (fields : List (String × ToolSchema)) : Registry :=
  fields.foldl (fun r p => entryInsert r u p.1 p.2) reg

/-- `load_all_tools` from `redis_registry.rs`: rebuild the in-memory registry
from Redis — global hash entries under `Uuid::nil()`, then each per-twin hash
under its own scope.  (Entries whose JSON fails to parse or whose key suffix is
not a UUID are skipped by the source; the typed store cannot contain such
entries, so that filter is vacuous here.) -/
def load_all_tools (store : RedisStore) : Except String Registry :=
  if store.available = false then Except.error "redis connection failed"
  else
    Except.ok
      (store.twins.foldl (fun r g => load_group r g.1 g.2)
        (load_group [] Uuid.nil store.global))

/-- `main.rs` line 105: `load_all_tools(&redis_client).await.unwrap_or_default()`. -/
def rehydrate (store : RedisStore) : Registry :=
  match load_all_tools store with
  | Except.ok reg => reg
  | Except.error _ => []

/-- `upsert_tool` from `main.rs`: first insert into the in-memory map, then
persist (global key for the nil scope, per-twin key otherwise).  The return
value carries the possibly-failed persistence result; note that the in-memory
insertion has already happened in either case. -/
def upsert_tool (st : GatewayState) (twin : Uuid) (tool : ToolSchema) :
    GatewayState × Except String Unit :=
  let reg := entryInsert st.registry twin tool.name tool
  let persist_twin : Option Uuid := if twin = Uuid.nil then none else some twin
  match persist_tool st.store persist_twin tool with
  | Except.error e => ({ st with registry := reg }, Except.error e)
  | Except.ok store => ({ registry := reg, store := store }, Except.ok ())

/-- Boolean list-prefix test (`p` is a prefix of `l`), the character-level
meaning of Rust `str::starts_with` / the test half of `str::strip_prefix`. -/
def lpre {α : Type} [DecidableEq α] : List α → List α → Bool
  | [], _ => true
  | _ :: _, [] => false
  | a :: as, b :: bs => if a = b then lpre as bs else false

/-- `str::starts_with` on the character level. -/
def startsB (s p : String) : Bool := lpre p.data s.data

/-- The remainder of `s` after removing the first `p.length` characters. -/
def restOf (s p : String) : String := String.mk (s.data.drop p.data.length)

/-- Rust `str::strip_prefix`: `Some(rest)` when `p` prefixes `s`, else `None`. -/
def stripStart (s p : String) : Option String :=
  if startsB s p then some (restOf s p) else none

/-- Rust `str::trim_end_matches('/')`: drop every trailing slash. -/
def trimEndSlashes (s : String) : String :=
  String.mk ((s.data.reverse.dropWhile (fun c => c = '/')).reverse)

/-- Rust `str::trim_start_matches('/')`: drop every leading slash. -/
def trimStartSlashes (s : String) : String :=
  String.mk (s.data.dropWhile (fun c => c = '/'))

/-- `let url = format!("{base}/{endpoint}")` from `execute_tool` in `main.rs`,
with base trimmed of trailing slashes and endpoint of leading slashes. -/
def joinUrl (tool : ToolSchema) : String :=
  trimEndSlashes tool.plugin_url ++ "/" ++ trimStartSlashes tool.endpoint

/-- The registry resolution performed at the top of `execute_tool` in
`main.rs`: caller scope first, then the nil (global) scope. -/
def lookupIn (reg : Registry) (u : Uuid) (name : String) : Option ToolSchema :=
  match alookup reg u with
  | none => none
  | some m => alookup m name

/-- `reg.get(&twin).and_then(|m| m.get(&name)).or_else(|| reg.get(&nil).and_then(...))`. -/
def lookupTool (reg : Registry) (twin : Uuid) (name : String) : Option ToolSchema :=
  match lookupIn reg twin name with
  | some t => some t
  | none => lookupIn reg Uuid.nil name

/-- One metrics emission, either `metrics::counter!(name, "tool" => tool,
"status" => status).increment(1)` or `metrics::histogram!(name, "tool" =>
tool).record(elapsed)`. -/
inductive MetricEvent where
  | counter (name tool status : String) : MetricEvent
  | histogram (name tool : String) : MetricEvent
deriving DecidableEq, Repr

/-- A transport-level `reqwest` failure (the `Err` arm of `send().await`). -/
structure HttpSendErr where
  isTimeout : Bool
  msg : String

/-- A backend HTTP response: its status code and the result of reading the
body (`resp.text().await` can itself fail). -/
structure HttpResponse where
  status : Nat
  body : Except String String

/-- `StatusCode::is_success()`: 2xx. -/
def isSuccessStatus (s : Nat) : Bool := 200 ≤ s && s < 300

/-- What `execute_tool` sends back: `(StatusCode::OK, body)` on success, or
`err_json(status, error)` (whose message we keep) on failure. -/
inductive ExecResponse where
  | ok (body : String) : ExecResponse
  | err (status : Nat) (message : String) : ExecResponse
deriving DecidableEq, Repr

/-- The HTTP status code of a gateway response (`OK` is 200). -/
def ExecResponse.statusCode : ExecResponse → Nat
  | ExecResponse.ok _ => 200
  | ExecResponse.err s _ => s

/-- The four backend executors as consulted by the dispatcher, modelled as
total functions: path → entry point → parameters → result. The HTTP client is
url → parameters → response-or-transport-error. -/
structure ExecEnv where
  sharedLibExec : String → String → Json → Except String String
  wasmExec : String → String → Json → Except String String
  componentExec : String → String → Json → Except String String
  httpPost : String → Json → Except HttpSendErr HttpResponse

/-- The shared structure of the three plugin-backend arms of `execute_tool`
(`main.rs` lines 241–302): success emits the success counter and latency
histogram and returns 200 with the result; failure emits the error counter and
histogram and returns 502 (`BAD_GATEWAY`) with the error. -/
def pluginBranch (tool_name : String) (r : Except String String) :
    ExecResponse × List MetricEvent :=
  match r with
  | Except.ok result =>
    (ExecResponse.ok result,
     [MetricEvent.counter "pagi_tool_executions_total" tool_name "success",
      MetricEvent.histogram "pagi_tool_execution_duration_seconds" tool_name])
  | Except.error e =>
    (ExecResponse.err 502 e,
     [MetricEvent.counter "pagi_tool_executions_total" tool_name "error",
      MetricEvent.histogram "pagi_tool_execution_duration_seconds" tool_name])

/-- The HTTP fallback arm of `execute_tool` (`main.rs` lines 304–356): POST the
parameters to the joined URL; 2xx passes the body through verbatim with 200;
non-2xx becomes `err_json(status, "plugin returned {status}: {text}")`
reusing the backend status; a body-read failure becomes 500; a transport
failure becomes 502. -/
def httpBranch (env : ExecEnv) (tool : ToolSchema) (tool_name : String) (params : Json) :
    ExecResponse × List MetricEvent :=
  match env.httpPost (joinUrl tool) params with
  | Except.ok resp =>
    match resp.body with
    | Except.ok text =>
      if isSuccessStatus resp.status then
        (ExecResponse.ok text,
         [MetricEvent.counter "pagi_tool_executions_total" tool_name "success",
          MetricEvent.histogram "pagi_tool_execution_duration_seconds" tool_name])
      else
        (ExecResponse.err resp.status
          ("plugin returned " ++ toString resp.status ++ ": " ++ text),
         [MetricEvent.counter "pagi_tool_executions_total" tool_name "error",
          MetricEvent.histogram "pagi_tool_execution_duration_seconds" tool_name])
    | Except.error read_err =>
      (ExecResponse.err 500 ("failed to read plugin response: " ++ read_err),
       [MetricEvent.counter "pagi_tool_executions_total" tool_name "error",
        MetricEvent.histogram "pagi_tool_execution_duration_seconds" tool_name])
  | Except.error e =>
    (ExecResponse.err 502 e.msg,
     [MetricEvent.counter "pagi_tool_executions_total" tool_name "error",
      MetricEvent.histogram "pagi_tool_execution_duration_seconds" tool_name])

/-- The dispatcher `execute_tool` from `main.rs`: resolve the tool (scope then
global), emit the `not_found` counter and return 404 when absent; otherwise
route on the locator scheme — `sharedlib://` to the native executor, `wasm://`
to the legacy WebAssembly executor, `wasm-component://` or `component://` to
the WASI component executor — and fall through to the HTTP proxy. -/
def execute_tool (env : ExecEnv) (reg : Registry) (twin : Uuid)
    (tool_name : String) (params : Json) : ExecResponse × List MetricEvent :=
  match lookupTool reg twin tool_name with
  | none =>
    (ExecResponse.err 404 ("tool " ++ tool_name ++ " not found"),
     [MetricEvent.counter "pagi_tool_executions_total" tool_name "not_found"])
  | some tool =>
    match stripStart tool.plugin_url "sharedlib://" with
    | some lib_path => pluginBranch tool_name (env.sharedLibExec lib_path tool.endpoint params)
    | none =>
      match stripStart tool.plugin_url "wasm://" with
      | some wasm_path => pluginBranch tool_name (env.wasmExec wasm_path tool.endpoint params)
      | none =>
        match (stripStart tool.plugin_url "wasm-component://").orElse
            (fun _ => stripStart tool.plugin_url "component://") with
        | some comp_path =>
          pluginBranch tool_name (env.componentExec comp_path tool.endpoint params)
        | none => httpBranch env tool tool_name params

/-- A loaded native library (`shared_lib.rs`), at its canonical path: symbol
resolution (`Library::get`) yields, when the symbol exists, the C function
`extern "C" fn(*const c_char) -> *mut c_char`, modelled as a function from the
input C string to `some` returned C string or `none` for a NULL return.  The
optional `free_cstring` export releases callee-owned memory and has no
observable effect on the result. -/
structure LibModel where
  resolve : String → Option (String → Option String)
  hasFreeHook : Bool

/-- `CString::new`: fails exactly when the string contains an interior NUL. -/
def hasNul : List Char → Bool
  | [] => false
  | c :: rest => if c = nulChar then true else hasNul rest

/-- `CString::new(params_json)` from `shared_lib.rs`. -/
def cstring_new (s : String) : Except String String :=
  if hasNul s.data then Except.error "nul byte in string" else Except.ok s

/-- `shared_lib::execute_tool` (`shared_lib.rs` lines 101–143): serialize the
parameters to JSON, convert to a C string, resolve the entry-point symbol,
call it; a NULL return is an error, otherwise the returned C string is copied
out (and the optional `free_cstring` hook invoked, which does not affect the
result).  Path canonicalization is filesystem I/O and is assumed to have
succeeded for the library `lib` models. -/
def SharedLib.execute_tool (lib : LibModel) (symbol_name : String) (params : Json) :
    Except String String :=
  let params_json := Json.serialize params
  match cstring_new params_json with
  | Except.error e => Except.error e
  | Except.ok c_params =>
    match lib.resolve symbol_name with
    | none => Except.error ("missing tool symbol " ++ symbol_name)
    | some func =>
      match func c_params with
      | none => Except.error ("tool " ++ symbol_name ++ " returned NULL")
      | some s => Except.ok s

/-- Interpret a natural below 2^32 as a signed 32-bit integer (`as i32` on a
`u32` in Rust). -/
def toI32 (n : Nat) : Int :=
  if n < 2 ^ 31 then (n : Int) else (n : Int) - 2 ^ 32

/-- Reinterpret an `i64` value as its unsigned 64-bit bit pattern (`as u64`). -/
def toU64 (v : Int) : Nat := (v % ((2 : Int) ^ 64)).toNat

/-- `pack_u64_to_i32_pair` from `wasm_plugin.rs`: high 32 bits as the output
pointer, low 32 bits as the output length, each reinterpreted as `i32`. -/
def pack_u64_to_i32_pair (v : Int) : Int × Int :=
  (toI32 (toU64 v / 2 ^ 32), toI32 (toU64 v % 2 ^ 32))

/-- A freshly instantiated legacy WebAssembly module (`wasm_plugin.rs`):
presence of the `memory`, `alloc` and `dealloc` exports, the lookup of the
per-tool export `(ptr, len) -> i64`, and the guest-memory operations.  Results
are `Except` because any call may trap.  `dealloc` outcomes are discarded by
the host (`let _ = dealloc.call(...)`), so they are not modelled. -/
structure WasmEnv where
  hasMemory : Bool
  hasAlloc : Bool
  hasDealloc : Bool
  toolExport : String → Option (Int → Int → Except String Int)
  allocFn : Int → Except String Int
  memWrite : Int → String → Except String Unit
  memRead : Int → Int → Except String String

/-- `wasm_plugin::execute_tool` (`wasm_plugin.rs` lines 111–172): require the
`memory`, `alloc`, `dealloc` and tool exports; allocate and write the JSON
parameters into guest memory; call the tool export; unpack its `i64` return
into the `(out_ptr, out_len)` pair; a non-positive pointer or length is an
error before any guest-memory read; otherwise read and return the output
bytes (lossy UTF-8 decoding is folded into `memRead`). -/
def WasmPlugin.execute_tool (m : WasmEnv) (symbol_name : String) (params : Json) :
    Except String String :=
  if m.hasMemory = false then Except.error "missing export memory"
  else if m.hasAlloc = false then Except.error "missing export alloc"
  else if m.hasDealloc = false then Except.error "missing export dealloc"
  else
    match m.toolExport symbol_name with
    | none => Except.error ("missing export tool function " ++ symbol_name)
    | some tool_fn =>
      let params_json := Json.serialize params
      let len : Int := (params_json.utf8ByteSize : Int)
      match m.allocFn len with
      | Except.error e => Except.error ("alloc failed: " ++ e)
      | Except.ok in_ptr =>
        match m.memWrite in_ptr params_json with
        | Except.error e => Except.error ("memory write failed: " ++ e)
        | Except.ok _ =>
          match tool_fn in_ptr len with
          | Except.error e => Except.error ("tool call failed: " ++ e)
          | Except.ok ret =>
            let packed := pack_u64_to_i32_pair ret
            if packed.1 ≤ 0 ∨ packed.2 ≤ 0 then
              Except.error "tool returned empty output"
            else
              match m.memRead packed.1 packed.2 with
              | Except.error e => Except.error ("memory read failed: " ++ e)
              | Except.ok out => Except.ok out

/-- `enum PluginType` from `auto_discover.rs`. -/
inductive PluginType where
  | Binary : PluginType
  | SharedLib : PluginType
  | ConfigOnly : PluginType
  | Wasm : PluginType
  | ComponentWasm : PluginType
deriving DecidableEq, Repr

/-- `struct PluginInfo` from `auto_discover.rs`. -/
structure PluginInfo where
  name : String
  version : String
  plugin_type : PluginType
  binary_path : Option String
  lib_path : Option String
  wasm_path : Option String
  wasm_component_path : Option String
  plugin_url : Option String

/-- `struct ToolDefinition` from `auto_discover.rs`. -/
structure ToolDefinition where
  name : String
  description : String
  endpoint : String
  parameters : Json

/-- `struct PluginManifest` from `auto_discover.rs`. -/
structure PluginManifest where
  plugin : PluginInfo
  tools : List ToolDefinition

/-- `enum SignatureMode` from `auto_discover.rs`. -/
inductive SignatureMode where
  | Off : SignatureMode
  | BestEffort : SignatureMode
  | Strict : SignatureMode
deriving DecidableEq, Repr

/-- ASCII lowercasing of one character (`str::to_lowercase` restricted to the
ASCII configuration values this variable can meaningfully hold). -/
def lowerChar (c : Char) : Char :=
  if 65 ≤ c.toNat ∧ c.toNat ≤ 90 then Char.ofNat (c.toNat + 32) else c

/-- ASCII lowercasing of a string. -/
def lowerStr (s : String) : String := String.mk (s.data.map lowerChar)

/-- `plugin_signature_mode()` from `auto_discover.rs`: parse the
`PAGI_PLUGIN_VERIFY_SIGNATURES` environment value (default `off`). -/
def plugin_signature_mode (env_val : Option String) : SignatureMode :=
  match lowerStr (env_val.getD "off") with
  | "true" => SignatureMode.Strict
  | "strict" => SignatureMode.Strict
  | "best_effort" => SignatureMode.BestEffort
  | "best-effort" => SignatureMode.BestEffort
  | _ => SignatureMode.Off

/-- The environment-derived configuration of the discovery watcher:
`PAGI_PLUGIN_VERIFY_SIGNATURES` and `PAGI_PLUGIN_COSIGN_PUBKEY`. -/
structure DiscoverConfig where
  verify_env : Option String
  pubkey : Option String

/-- The signature gate at the top of `register_plugin_from_manifest`
(`auto_discover.rs` lines 286–303): with verification off, pass; with a
configured key, a present signature must verify (failure is fatal only in
strict mode) and an absent signature is fatal only in strict mode; with no
configured key, strict mode is an error and best-effort passes. -/
def signature_gate (sig_mode : SignatureMode) (pubkey : Option String)
    (sigExists : Bool) (verifyOk : Bool) : Except String Unit :=
  if sig_mode ≠ SignatureMode.Off then
    match pubkey with
    | some _ =>
      if sigExists then
        if verifyOk = false then
          if sig_mode = SignatureMode.Strict then
            Except.error "cosign verify-blob failed"
          else Except.ok ()
        else Except.ok ()
      else
        if sig_mode = SignatureMode.Strict then
          Except.error "missing required manifest signature"
        else Except.ok ()
    | none =>
      if sig_mode = SignatureMode.Strict then
        Except.error "PAGI_PLUGIN_VERIFY_SIGNATURES=strict but PAGI_PLUGIN_COSIGN_PUBKEY is not set"
      else Except.ok ()
  else Except.ok ()

/-- Everything `register_plugin_from_manifest` observes about one plugin
directory: the parsed manifest (or read/parse error), signature-file state,
existence of the declared module/library file, its canonical path, and the
result of the matching executor's registration phase
(`shared_lib::register_tools` / `wasm_plugin::register_tools`). -/
structure PluginDirEnv where
  manifestParse : Except String PluginManifest
  sigExists : Bool
  sigVerifyOk : Bool
  moduleExists : Bool
  canonicalPath : String
  registeredTools : Except String (List ToolSchema)

/-- The scope chosen for auto-registered tools:
`let twin_id = if global_tools { global_twin_id() } else { global_twin_id() };`
(this exact expression appears in all four registration arms of
`register_plugin_from_manifest`). -/
def chooseTwin (global_tools : Bool) : Uuid :=
  if global_tools then global_twin_id else global_twin_id

/-- The per-tool upsert loop shared by the registration arms: set the tool's
locator, upsert it (warning and continuing on failure), and count successes. -/
def registerToolsLoop (st : GatewayState) (twin : Uuid) (tools : List ToolSchema)
    (locator : String) : GatewayState × Nat :=
  tools.foldl
    (fun acc tool =>
      let tool := { tool with plugin_url := locator }
      match upsert_tool acc.1 twin tool with
      | (st, Except.ok _) => (st, acc.2 + 1)
      | (st, Except.error _) => (st, acc.2))
    (st, 0)

/-- Build a `ToolSchema` from a manifest `ToolDefinition` and a locator, as the
`ComponentWasm` and `plugin_url` arms do. -/
def toolFromDef (td : ToolDefinition) (locator : String) : ToolSchema :=
  { name := td.name, description := td.description, plugin_url := locator,
    endpoint := td.endpoint, parameters := td.parameters }

/-- `register_plugin_from_manifest` from `auto_discover.rs`: signature gate,
manifest parse, then dispatch on the manifest type.  `SharedLib`/`Wasm` run the
matching executor's registration phase and upsert each discovered tool with a
`sharedlib://`/`wasm://` locator; `ComponentWasm` upserts each manifest tool
with a `wasm-component://` locator; `Binary` only spawns a child process (no
registration); the fallthrough (`ConfigOnly`) upserts each manifest tool with
the manifest's `plugin_url` if present.  Missing declared files skip with 0
registrations. -/
def register_plugin_from_manifest (cfg : DiscoverConfig) (st : GatewayState)
    (p : PluginDirEnv) (global_tools : Bool) : GatewayState × Except String Nat :=
  match signature_gate (plugin_signature_mode cfg.verify_env) cfg.pubkey
      p.sigExists p.sigVerifyOk with
  | Except.error e => (st, Except.error e)
  | Except.ok _ =>
    match p.manifestParse with
    | Except.error e => (st, Except.error e)
    | Except.ok manifest =>
      if manifest.plugin.plugin_type = PluginType.SharedLib then
        match manifest.plugin.lib_path with
        | some _ =>
          if p.moduleExists then
            match p.registeredTools with
            | Except.error e => (st, Except.error e)
            | Except.ok tools =>
              let twin := chooseTwin global_tools
              let r := registerToolsLoop st twin tools ("sharedlib://" ++ p.canonicalPath)
              (r.1, Except.ok r.2)
          else (st, Except.ok 0)
        | none => (st, Except.ok 0)
      else if manifest.plugin.plugin_type = PluginType.Wasm then
        match manifest.plugin.wasm_path with
        | some _ =>
          if p.moduleExists then
            match p.registeredTools with
            | Except.error e => (st, Except.error e)
            | Except.ok tools =>
              let twin := chooseTwin global_tools
              let r := registerToolsLoop st twin tools ("wasm://" ++ p.canonicalPath)
              (r.1, Except.ok r.2)
          else (st, Except.ok 0)
        | none => (st, Except.ok 0)
      else if manifest.plugin.plugin_type = PluginType.ComponentWasm then
        match manifest.plugin.wasm_component_path with
        | some _ =>
          if p.moduleExists then
            let locator := "wasm-component://" ++ p.canonicalPath
            let twin := chooseTwin global_tools
            let r := registerToolsLoop st twin
              (manifest.tools.map (fun td => toolFromDef td locator)) locator
            (r.1, Except.ok r.2)
          else (st, Except.ok 0)
        | none => (st, Except.ok 0)
      else if manifest.plugin.plugin_type = PluginType.Binary then
        (st, Except.ok 0)
      else
        match manifest.plugin.plugin_url with
        | none => (st, Except.ok 0)
        | some url =>
          let twin := chooseTwin global_tools
          let r := registerToolsLoop st twin
            (manifest.tools.map (fun td => toolFromDef td url)) url
          (r.1, Except.ok r.2)

/-- `scan_and_register_plugins` from `auto_discover.rs`: iterate the plugin
directories; a failing registration is logged (`warn!`) and the scan
continues.  Returns the final state, the total number of registered tools, and
the per-plugin outcomes. -/
def scan_and_register_plugins (cfg : DiscoverConfig) (st : GatewayState)
    (plugins : List PluginDirEnv) (global_tools : Bool) :
    GatewayState × Nat × List (Except String Nat) :=
  plugins.foldl
    (fun acc p =>
      let r := register_plugin_from_manifest cfg acc.1 p global_tools
      match r.2 with
      | Except.ok n => (r.1, acc.2.1 + n, acc.2.2 ++ [Except.ok n])
      | Except.error e => (r.1, acc.2.1, acc.2.2 ++ [Except.error e]))
    (st, 0, [])

/-- What `main()` (`main.rs` lines 96–143) can observe at startup: whether
`redis::Client::open` and the TCP bind succeed, and the store contents used
for rehydration. -/
structure MainEnv where
  redis_open_ok : Bool
  bind_ok : Bool
  store : RedisStore

/-- The startup sequence of `main()`: open the Redis client, rehydrate the
in-memory registry (`load_all_tools(..).unwrap_or_default()`), optionally
spawn the plugin watcher on a detached task (whose errors are only logged and
cannot fail startup), and bind.  The discovery configuration `cfg` — including
the signature-verification mode — is passed to the watcher task but is never
examined by `main` itself: no configuration check can abort startup. -/
def main_startup (env : MainEnv) (cfg : DiscoverConfig) : Except String GatewayState :=
  if env.redis_open_ok = false then Except.error "redis open failed"
  else
    let _unused := cfg
    let loaded := rehydrate env.store
    if env.bind_ok = false then Except.error "bind failed"
    else Except.ok { registry := loaded, store := env.store }

/-- `list_tools_for_twin` from `main.rs`: the tools of the requested scope
followed by the tools of the nil (global) scope. -/
def list_tools_for_twin (reg : Registry) (twin : Uuid) : List ToolSchema :=
  ((alookup reg twin).getD []).map Prod.snd
    ++ ((alookup reg Uuid.nil).getD []).map Prod.snd

/-- Replay a sequence of `(scope, tool)` registrations through `upsert_tool`. -/
def apply_upserts (st : GatewayState) (ops : List (Uuid × ToolSchema)) : GatewayState :=
  ops.foldl (fun s p => (upsert_tool s p.1 p.2).1) st

/-- A fresh gateway: empty registry, empty but reachable store. -/
def initialState : GatewayState :=
  { registry := [], store := { available := true, global := [], twins := [] } }

theorem alookup_ainsert_self {κ α : Type} [DecidableEq κ] (l : List (κ × α)) (k : κ) (a : α) :
    alookup (ainsert l k a) k = some a := by
  induction l with
  | nil => simp [ainsert, alookup]
  | cons p rest ih =>
    by_cases h : p.1 = k
    · simp [ainsert, h, alookup]
    · simp [ainsert, h, alookup, ih]

theorem alookup_ainsert_ne {κ α : Type} [DecidableEq κ] (l : List (κ × α)) (k k' : κ) (a : α)
    (h : k' ≠ k) : alookup (ainsert l k a) k' = alookup l k' := by
  have hne : ¬(k = k') := fun hh => h hh.symm
  induction l with
  | nil => simp [ainsert, alookup, hne]
  | cons p rest ih =>
    obtain ⟨pk, pv⟩ := p
    by_cases hp : pk = k
    · subst hp
      simp [ainsert, alookup, hne]
    · by_cases hp' : pk = k'
      · simp [ainsert, hp, alookup, hp', h]
      · simp [ainsert, hp, alookup, hp', ih]

theorem alookup_entryInsert_self (reg : Registry) (u : Uuid) (n : String) (t : ToolSchema) :
    alookup (entryInsert reg u n t) u
      = some (ainsert ((alookup reg u).getD []) n t) := by
  unfold entryInsert
  exact alookup_ainsert_self _ _ _

theorem alookup_entryInsert_ne (reg : Registry) (u v : Uuid) (n : String) (t : ToolSchema)
    (h : v ≠ u) : alookup (entryInsert reg u n t) v = alookup reg v := by
  unfold entryInsert
  exact alookup_ainsert_ne _ _ _ _ h

theorem alookup_append {κ α : Type} [DecidableEq κ] (a b : List (κ × α)) (k : κ) :
    alookup (a ++ b) k
      = match alookup a k with
        | some v => some v
        | none => alookup b k := by
  induction a with
  | nil => simp [alookup]
  | cons p rest ih =>
    by_cases h : p.1 = k
    · simp [alookup, h]
    · simp [alookup, h, ih]

theorem ainsert_of_alookup_none {κ α : Type} [DecidableEq κ] (l : List (κ × α)) (k : κ) (a : α)
    (h : alookup l k = none) : ainsert l k a = l ++ [(k, a)] := by
  induction l with
  | nil => simp [ainsert]
  | cons p rest ih =>
    by_cases hp : p.1 = k
    · simp [alookup, hp] at h
    · simp [alookup, hp] at h
      simp [ainsert, hp, ih h]

/-- Boolean prefix tests against a common list are comparable: the shorter is a
prefix of the longer. -/
theorem lpre_impl {α : Type} [DecidableEq α] :
    ∀ (l p q : List α), lpre p l = true → lpre q l = true → q.length ≤ p.length →
      lpre q p = true
  | _, [], [], _, _, _ => rfl
  | _, [], _ :: _, _, _, hlen => by simp at hlen
  | _, _ :: _, [], _, _, _ => rfl
  | [], _ :: _, _ :: _, hp, _, _ => by simp [lpre] at hp
  | a :: as, b :: bs, c :: cs, hp, hq, hlen => by
    simp only [lpre] at hp hq ⊢
    by_cases hb : b = a
    · by_cases hc : c = a
      · subst hb; subst hc
        simp only [if_pos rfl] at hp hq ⊢
        exact lpre_impl as bs cs hp hq (by simpa using hlen)
      · rw [if_neg hc] at hq; exact absurd hq (by simp)
    · rw [if_neg hb] at hp; exact absurd hp (by simp)

/-- If `loc` starts with `X`, and neither of `X`, `Y` prefixes the other, then
`loc` does not start with `Y`. -/
theorem startsB_excl (loc X Y : String) (h : startsB loc X = true)
    (hxy : lpre X.data Y.data = false) (hyx : lpre Y.data X.data = false) :
    startsB loc Y = false := by
  cases hb : lpre Y.data loc.data with
  | false => exact hb
  | true =>
    rcases Nat.le_total X.data.length Y.data.length with hle | hle
    · have := lpre_impl loc.data Y.data X.data hb h hle
      rw [hxy] at this; exact Bool.noConfusion this
    · have := lpre_impl loc.data X.data Y.data h hb hle
      rw [hyx] at this; exact Bool.noConfusion this

theorem hexDigit_ne_nul : ∀ n < 16, hexDigit n ≠ nulChar := by decide

theorem digitCh_ne_nul : ∀ d < 10, digitCh d ≠ nulChar := by decide

theorem natDigits_no_nul (n : Nat) : nulChar ∉ natDigits n := by
  induction n using Nat.strong_induction_on with
  | _ n ih =>
    unfold natDigits
    by_cases h : n < 10
    · simp only [if_pos, h, dif_pos]
      intro hm
      rcases List.mem_singleton.mp hm with hh
      exact digitCh_ne_nul n h hh.symm
    · simp only [dif_neg h]
      intro hm
      rcases List.mem_append.mp hm with hh | hh
      · exact ih (n / 10) (Nat.div_lt_self (by omega) (by omega)) hh
      · rcases List.mem_singleton.mp hh with hh
        exact digitCh_ne_nul (n % 10) (Nat.mod_lt n (by omega)) hh.symm

theorem intChars_no_nul (v : Int) : nulChar ∉ intChars v := by
  cases v with
  | ofNat m => exact natDigits_no_nul m
  | negSucc m =>
    intro hm
    rcases List.mem_cons.mp hm with hh | hh
    · exact (by decide : nulChar ≠ '-') hh
    · exact natDigits_no_nul (m + 1) hh

theorem escChar_no_nul (c : Char) : nulChar ∉ escChar c := by
  unfold escChar
  split
  · decide
  · split
    · decide
    · split
      · decide
      · split
        · decide
        · split
          · decide
          · split
            · decide
            · split
              · decide
              · split
                · rename_i h1 h2 h3 h4 h5 h6 h7 hlt
                  intro hm
                  simp only [List.mem_cons, List.mem_singleton] at hm
                  rcases hm with h | h | h | h | h | h | h
                  · exact (by decide : nulChar ≠ '\\') h
                  · exact (by decide : nulChar ≠ 'u') h
                  · exact (by decide : nulChar ≠ '0') h
                  · exact (by decide : nulChar ≠ '0') h
                  · exact hexDigit_ne_nul (c.toNat / 16) (by omega) h.symm
                  · exact hexDigit_ne_nul (c.toNat % 16) (by omega) h.symm
                  · exact absurd h (List.not_mem_nil _)
                · rename_i h1 h2 h3 h4 h5 h6 h7 hge
                  intro hm
                  rcases List.mem_singleton.mp hm with hh
                  have hc : c.toNat = 0 := by rw [← hh]; decide
                  omega

theorem escapeList_no_nul (l : List Char) : nulChar ∉ escapeList l := by
  induction l with
  | nil => simp [escapeList]
  | cons c cs ih =>
    simp only [escapeList]
    intro hm
    rcases List.mem_append.mp hm with hh | hh
    · exact escChar_no_nul c hh
    · exact ih hh

mutual

theorem serializeChars_no_nul : ∀ j : Json, nulChar ∉ Json.serializeChars j
  | Json.null => by simp only [Json.serializeChars]; decide
  | Json.bool true => by simp only [Json.serializeChars]; decide
  | Json.bool false => by simp only [Json.serializeChars]; decide
  | Json.num n => by simp only [Json.serializeChars]; exact intChars_no_nul n
  | Json.str s => by
    simp only [Json.serializeChars]
    intro hm
    rcases List.mem_cons.mp hm with h | h
    · exact (by decide : nulChar ≠ '"') h
    · rcases List.mem_append.mp h with h | h
      · exact escapeList_no_nul s.data h
      · rcases List.mem_singleton.mp h with h
        exact (by decide : nulChar ≠ '"') h
  | Json.arr xs => by
    simp only [Json.serializeChars]
    intro hm
    rcases List.mem_cons.mp hm with h | h
    · exact (by decide : nulChar ≠ '[') h
    · rcases List.mem_append.mp h with h | h
      · exact serializeArr_no_nul xs h
      · rcases List.mem_singleton.mp h with h
        exact (by decide : nulChar ≠ ']') h
  | Json.obj kvs => by
    simp only [Json.serializeChars]
    intro hm
    rcases List.mem_cons.mp hm with h | h
    · exact (by decide : nulChar ≠ Char.ofNat 123) h
    · rcases List.mem_append.mp h with h | h
      · exact serializeObj_no_nul kvs h
      · rcases List.mem_singleton.mp h with h
        exact (by decide : nulChar ≠ Char.ofNat 125) h

theorem serializeArr_no_nul : ∀ xs : List Json, nulChar ∉ serializeArr xs
  | [] => by simp [serializeArr]
  | [x] => by simp only [serializeArr]; exact serializeChars_no_nul x
  | x :: y :: xs => by
    simp only [serializeArr]
    intro hm
    rcases List.mem_append.mp hm with h | h
    · exact serializeChars_no_nul x h
    · rcases List.mem_cons.mp h with h | h
      · exact (by decide : nulChar ≠ ',') h
      · exact serializeArr_no_nul (y :: xs) h

theorem serializeObj_no_nul : ∀ kvs : List (String × Json), nulChar ∉ serializeObj kvs
  | [] => by simp [serializeObj]
  | [kv] => by simp only [serializeObj]; exact serializeKV_no_nul kv
  | kv :: kv2 :: rest => by
    simp only [serializeObj]
    intro hm
    rcases List.mem_append.mp hm with h | h
    · exact serializeKV_no_nul kv h
    · rcases List.mem_cons.mp h with h | h
      · exact (by decide : nulChar ≠ ',') h
      · exact serializeObj_no_nul (kv2 :: rest) h

theorem serializeKV_no_nul : ∀ kv : String × Json, nulChar ∉ serializeKV kv
  | (k, v) => by
    simp only [serializeKV]
    intro hm
    rcases List.mem_cons.mp hm with h | h
    · exact (by decide : nulChar ≠ '"') h
    · rcases List.mem_append.mp h with h | h
      · exact escapeList_no_nul k.data h
      · rcases List.mem_cons.mp h with h | h
        · exact (by decide : nulChar ≠ '"') h
        · rcases List.mem_cons.mp h with h | h
          · exact (by decide : nulChar ≠ ':') h
          · exact serializeChars_no_nul v h

end

theorem hasNul_eq_false_of (l : List Char) (h : nulChar ∉ l) : hasNul l = false := by
  induction l with
  | nil => rfl
  | cons c cs ih =>
    simp only [List.mem_cons, not_or] at h
    simp only [hasNul]
    rw [if_neg (fun hh : c = nulChar => h.1 hh.symm)]
    exact ih h.2

theorem serialize_no_nul (j : Json) : hasNul (Json.serialize j).data = false :=
  hasNul_eq_false_of _ (serializeChars_no_nul j)

/-- The keys of an association list. -/
def keysOf {κ α : Type} (l : List (κ × α)) : List κ := l.map Prod.fst

theorem keysOf_nil {κ α : Type} : keysOf ([] : List (κ × α)) = [] := rfl

theorem keysOf_cons {κ α : Type} (p : κ × α) (l : List (κ × α)) :
    keysOf (p :: l) = p.1 :: keysOf l := rfl

theorem alookup_eq_none_iff {κ α : Type} [DecidableEq κ] (l : List (κ × α)) (k : κ) :
    alookup l k = none ↔ k ∉ keysOf l := by
  induction l with
  | nil => simp [alookup, keysOf_nil]
  | cons p rest ih =>
    obtain ⟨pk, pv⟩ := p
    rw [keysOf_cons]
    by_cases h : pk = k
    · subst h
      simp [alookup]
    · have h' : ¬(k = pk) := fun hh => h hh.symm
      simp only [alookup, if_neg h, List.mem_cons, not_or]
      rw [ih]
      constructor
      · intro hh
        exact ⟨h', hh⟩
      · intro hh
        exact hh.2

theorem alookup_mem {κ α : Type} [DecidableEq κ] (l : List (κ × α)) (k : κ) (v : α)
    (h : alookup l k = some v) : (k, v) ∈ l := by
  induction l with
  | nil => simp [alookup] at h
  | cons p rest ih =>
    obtain ⟨pk, pv⟩ := p
    by_cases hp : pk = k
    · subst hp
      simp [alookup] at h
      simp [h]
    · simp only [alookup, if_neg hp] at h
      exact List.mem_cons_of_mem _ (ih h)

theorem mem_ainsert {κ α : Type} [DecidableEq κ] (l : List (κ × α)) (k : κ) (a : α)
    (p : κ × α) (h : p ∈ ainsert l k a) : p = (k, a) ∨ p ∈ l := by
  induction l with
  | nil => simpa [ainsert] using h
  | cons q rest ih =>
    obtain ⟨qk, qv⟩ := q
    by_cases hq : qk = k
    · subst hq
      simp only [ainsert, if_pos rfl] at h
      rcases List.mem_cons.mp h with hh | hh
      · exact Or.inl hh
      · exact Or.inr (List.mem_cons_of_mem _ hh)
    · simp only [ainsert, if_neg hq] at h
      rcases List.mem_cons.mp h with hh | hh
      · exact Or.inr (by simp [hh])
      · rcases ih hh with hh | hh
        · exact Or.inl hh
        · exact Or.inr (List.mem_cons_of_mem _ hh)

theorem ainsert_ne_nil {κ α : Type} [DecidableEq κ] (l : List (κ × α)) (k : κ) (a : α) :
    ainsert l k a ≠ [] := by
  cases l with
  | nil => simp [ainsert]
  | cons p rest =>
    obtain ⟨pk, pv⟩ := p
    by_cases hp : pk = k
    · simp [ainsert, hp]
    · simp [ainsert, hp]

theorem keysOf_ainsert_of_none {κ α : Type} [DecidableEq κ] (l : List (κ × α)) (k : κ) (a : α)
    (h : alookup l k = none) : keysOf (ainsert l k a) = keysOf l ++ [k] := by
  rw [ainsert_of_alookup_none l k a h]
  simp [keysOf]

theorem keysOf_ainsert_of_some {κ α : Type} [DecidableEq κ] (l : List (κ × α)) (k : κ) (a v : α)
    (h : alookup l k = some v) : keysOf (ainsert l k a) = keysOf l := by
  induction l with
  | nil => simp [alookup] at h
  | cons p rest ih =>
    obtain ⟨pk, pv⟩ := p
    by_cases hp : pk = k
    · subst hp
      simp [ainsert, keysOf]
    · simp only [alookup, if_neg hp] at h
      simp only [ainsert, if_neg hp]
      rw [keysOf_cons, keysOf_cons]
      rw [ih h]

theorem nodup_keysOf_ainsert {κ α : Type} [DecidableEq κ] (l : List (κ × α)) (k : κ) (a : α)
    (h : (keysOf l).Nodup) : (keysOf (ainsert l k a)).Nodup := by
  cases hl : alookup l k with
  | none =>
    rw [keysOf_ainsert_of_none l k a hl]
    have hk : k ∉ keysOf l := (alookup_eq_none_iff l k).mp hl
    simp [List.nodup_append, h, hk]
  | some v =>
    rw [keysOf_ainsert_of_some l k a v hl]
    exact h

theorem foldl_ainsert_eq_append {κ α : Type} [DecidableEq κ] :
    ∀ (fields g : List (κ × α)), (keysOf fields).Nodup →
      (∀ k ∈ keysOf fields, alookup g k = none) →
      fields.foldl (fun acc p => ainsert acc p.1 p.2) g = g ++ fields
  | [], g, _, _ => by simp
  | (n, t) :: rest, g, hnd, hdisj => by
    have hn : alookup g n = none := by
      apply hdisj
      rw [keysOf_cons]
      exact List.mem_cons_self _ _
    have hstep : ainsert g n t = g ++ [(n, t)] := ainsert_of_alookup_none g n t hn
    have hnd2 : (n :: keysOf rest).Nodup := by rw [keysOf_cons] at hnd; exact hnd
    have hnmem : n ∉ keysOf rest := (List.nodup_cons.mp hnd2).1
    have hnd' : (keysOf rest).Nodup := (List.nodup_cons.mp hnd2).2
    have hdisj' : ∀ k ∈ keysOf rest, alookup (g ++ [(n, t)]) k = none := by
      intro k hk
      rw [alookup_append]
      rw [hdisj k (by rw [keysOf_cons]; exact List.mem_cons_of_mem _ hk)]
      simp only [alookup]
      rw [if_neg (fun hh : n = k => hnmem (hh ▸ hk))]
    calc ((n, t) :: rest).foldl (fun acc p => ainsert acc p.1 p.2) g
        = rest.foldl (fun acc p => ainsert acc p.1 p.2) (g ++ [(n, t)]) := by
          simp [hstep]
      _ = (g ++ [(n, t)]) ++ rest := foldl_ainsert_eq_append rest (g ++ [(n, t)]) hnd' hdisj'
      _ = g ++ (n, t) :: rest := by simp

theorem load_group_alookup_ne :
    ∀ (fields : List (String × ToolSchema)) (reg : Registry) (u v : Uuid), v ≠ u →
      alookup (load_group reg u fields) v = alookup reg v
  | [], _, _, _, _ => rfl
  | f :: rest, reg, u, v, h => by
    have hstep : load_group reg u (f :: rest)
        = load_group (entryInsert reg u f.1 f.2) u rest := rfl
    rw [hstep, load_group_alookup_ne rest _ u v h,
      alookup_entryInsert_ne reg u v f.1 f.2 h]

theorem load_group_alookup_self :
    ∀ (fields : List (String × ToolSchema)) (reg : Registry) (u : Uuid), fields ≠ [] →
      alookup (load_group reg u fields) u
        = some (fields.foldl (fun acc p => ainsert acc p.1 p.2) ((alookup reg u).getD []))
  | [], _, _, h => absurd rfl h
  | [f], reg, u, _ => by
    have hstep : load_group reg u [f] = entryInsert reg u f.1 f.2 := rfl
    rw [hstep, alookup_entryInsert_self]
    rfl
  | f :: f2 :: rest, reg, u, _ => by
    have hstep : load_group reg u (f :: f2 :: rest)
        = load_group (entryInsert reg u f.1 f.2) u (f2 :: rest) := rfl
    rw [hstep, load_group_alookup_self (f2 :: rest) _ u (by simp)]
    rw [alookup_entryInsert_self]
    rfl

/-- Well-formedness of the Redis store contents, maintained by every write the
gateway performs: hash fields are unique, per-twin hashes are keyed by
non-nil scopes, and a per-twin hash exists only if it has at least one field. -/
def storeWF (store : RedisStore) : Prop :=
  (keysOf store.global).Nodup ∧ (keysOf store.twins).Nodup ∧
  ∀ g ∈ store.twins, g.1 ≠ Uuid.nil ∧ g.2 ≠ [] ∧ (keysOf g.2).Nodup

/-- The registry group that rehydration associates to scope `u`, read directly
off the store contents. -/
def storeLookup (store : RedisStore) (u : Uuid) : Option (List (String × ToolSchema)) :=
  if u = Uuid.nil then (if store.global.isEmpty then none else some store.global)
  else alookup store.twins u

theorem twins_fold_alookup :
    ∀ (tw : List (Uuid × List (String × ToolSchema))) (reg : Registry) (v : Uuid),
      (keysOf tw).Nodup →
      (∀ g ∈ tw, g.2 ≠ [] ∧ (keysOf g.2).Nodup ∧ alookup reg g.1 = none) →
      alookup (tw.foldl (fun r g => load_group r g.1 g.2) reg) v
        = match alookup tw v with
          | some tools => some tools
          | none => alookup reg v
  | [], reg, v, _, _ => by simp [alookup]
  | (u, tools) :: rest, reg, v, hnd, hcond => by
    have hu := hcond (u, tools) (List.mem_cons_self _ _)
    have htne : tools ≠ [] := hu.1
    have htnd : (keysOf tools).Nodup := hu.2.1
    have hnone : alookup reg u = none := hu.2.2
    have hnd2 : (u :: keysOf rest).Nodup := by rw [keysOf_cons] at hnd; exact hnd
    have humem : u ∉ keysOf rest := (List.nodup_cons.mp hnd2).1
    have hnd' : (keysOf rest).Nodup := (List.nodup_cons.mp hnd2).2
    have hregu : alookup (load_group reg u tools) u = some tools := by
      rw [load_group_alookup_self tools reg u htne, hnone]
      simp only [Option.getD_none]
      rw [foldl_ainsert_eq_append tools [] htnd (by intro k _; rfl)]
      rfl
    have hcond' : ∀ g ∈ rest, g.2 ≠ [] ∧ (keysOf g.2).Nodup ∧
        alookup (load_group reg u tools) g.1 = none := by
      intro g hg
      have hgc := hcond g (List.mem_cons_of_mem _ hg)
      refine ⟨hgc.1, hgc.2.1, ?_⟩
      have hgne : g.1 ≠ u := by
        intro hh
        exact humem (hh ▸ (List.mem_map.mpr ⟨g, hg, rfl⟩))
      rw [load_group_alookup_ne tools reg u g.1 hgne]
      exact hgc.2.2
    have hstep : ((u, tools) :: rest).foldl (fun r g => load_group r g.1 g.2) reg
        = rest.foldl (fun r g => load_group r g.1 g.2) (load_group reg u tools) := rfl
    rw [hstep, twins_fold_alookup rest (load_group reg u tools) v hnd' hcond']
    by_cases hv : v = u
    · subst hv
      have hrest : alookup rest v = none := by
        rw [alookup_eq_none_iff]
        exact humem
      rw [hrest]
      simp only [alookup, if_pos rfl]
      exact hregu
    · have hv' : ¬(u = v) := fun hh => hv hh.symm
      simp only [alookup, if_neg hv']
      cases hr : alookup rest v with
      | some tl => rfl
      | none => rw [load_group_alookup_ne tools reg u v hv]

theorem alookup_nil_scope_of_wf (tw : List (Uuid × List (String × ToolSchema)))
    (h : ∀ g ∈ tw, g.1 ≠ Uuid.nil) : alookup tw Uuid.nil = none := by
  rw [alookup_eq_none_iff]
  intro hmem
  rcases List.mem_map.mp hmem with ⟨g, hg, hge⟩
  exact h g hg hge

theorem rehydrate_alookup (store : RedisStore) (hwf : storeWF store)
    (hav : store.available = true) (v : Uuid) :
    alookup (rehydrate store) v = storeLookup store v := by
  obtain ⟨hgn, htn, htg⟩ := hwf
  have hload : rehydrate store
      = store.twins.foldl (fun r g => load_group r g.1 g.2)
          (load_group [] Uuid.nil store.global) := by
    unfold rehydrate load_all_tools
    rw [hav]
    simp
  have hregG : ∀ w, alookup (load_group [] Uuid.nil store.global) w
      = if w = Uuid.nil then (if store.global.isEmpty then none else some store.global)
        else none := by
    intro w
    by_cases hw : w = Uuid.nil
    · subst hw
      rw [if_pos rfl]
      cases hg : store.global with
      | nil => rfl
      | cons f rest =>
        rw [load_group_alookup_self (f :: rest) [] Uuid.nil (by simp)]
        have hbase : (alookup ([] : Registry) Uuid.nil).getD [] = [] := rfl
        rw [hbase, foldl_ainsert_eq_append (f :: rest) [] (hg ▸ hgn) (fun k _ => rfl)]
        simp [List.isEmpty]
    · rw [if_neg hw]
      rw [load_group_alookup_ne store.global [] Uuid.nil w hw]
      rfl
  rw [hload]
  rw [twins_fold_alookup store.twins _ v htn ?side]
  case side =>
    intro g hg
    have := htg g hg
    refine ⟨this.2.1, this.2.2, ?_⟩
    rw [hregG g.1, if_neg this.1]
  by_cases hv : v = Uuid.nil
  · subst hv
    rw [alookup_nil_scope_of_wf store.twins (fun g hg => (htg g hg).1)]
    rw [hregG Uuid.nil, if_pos rfl]
    unfold storeLookup
    rw [if_pos rfl]
  · unfold storeLookup
    rw [if_neg hv]
    cases hr : alookup store.twins v with
    | some tl => rfl
    | none => rw [hregG v, if_neg hv]

/-- The write-through invariant relating the in-memory registry to the store:
every scope's in-memory group coincides with what rehydration would rebuild. -/
def syncInv (st : GatewayState) : Prop :=
  storeWF st.store ∧ st.store.available = true ∧
  ∀ u, alookup st.registry u = storeLookup st.store u

theorem upsert_preserves_syncInv (st : GatewayState) (twin : Uuid) (tool : ToolSchema)
    (h : syncInv st) : syncInv (upsert_tool st twin tool).1 := by
  obtain ⟨⟨hgn, htn, htg⟩, hav, hlk⟩ := h
  by_cases htw : twin = Uuid.nil
  · subst htw
    have hres : upsert_tool st Uuid.nil tool
        = ({ registry := entryInsert st.registry Uuid.nil tool.name tool,
             store := { st.store with global := ainsert st.store.global tool.name tool } },
           Except.ok ()) := by
      simp [upsert_tool, persist_tool, hav]
    rw [hres]
    refine ⟨⟨nodup_keysOf_ainsert _ _ _ hgn, htn, htg⟩, hav, ?_⟩
    intro u
    by_cases hu : u = Uuid.nil
    · subst hu
      rw [alookup_entryInsert_self]
      unfold storeLookup
      rw [if_pos rfl]
      have hne : (ainsert st.store.global tool.name tool).isEmpty = false := by
        cases hg : ainsert st.store.global tool.name tool with
        | nil => exact absurd hg (ainsert_ne_nil _ _ _)
        | cons f rest => rfl
      rw [hne]
      simp only [Bool.false_eq_true, if_false]
      have hbase : (alookup st.registry Uuid.nil).getD [] = st.store.global := by
        rw [hlk Uuid.nil]
        unfold storeLookup
        rw [if_pos rfl]
        cases hg : st.store.global with
        | nil => rfl
        | cons f rest => rfl
      rw [hbase]
    · rw [alookup_entryInsert_ne _ _ _ _ _ hu]
      rw [hlk u]
      unfold storeLookup
      rw [if_neg hu, if_neg hu]
  · have hres : upsert_tool st twin tool
        = ({ registry := entryInsert st.registry twin tool.name tool,
             store := { st.store with twins := entryInsert st.store.twins twin tool.name tool } },
           Except.ok ()) := by
      simp [upsert_tool, persist_tool, hav, htw]
    rw [hres]
    have hinner : (keysOf ((alookup st.store.twins twin).getD [])).Nodup := by
      cases ht : alookup st.store.twins twin with
      | none => exact List.nodup_nil
      | some tl => exact (htg (twin, tl) (alookup_mem _ _ _ ht)).2.2
    refine ⟨⟨hgn, nodup_keysOf_ainsert _ _ _ htn, ?_⟩, hav, ?_⟩
    · intro g hg
      rcases mem_ainsert _ _ _ g hg with hh | hh
      · subst hh
        exact ⟨htw, ainsert_ne_nil _ _ _, nodup_keysOf_ainsert _ _ _ hinner⟩
      · exact htg g hh
    · intro u
      by_cases hu : u = twin
      · subst hu
        rw [alookup_entryInsert_self]
        unfold storeLookup
        rw [if_neg htw]
        rw [alookup_entryInsert_self]
        have : alookup st.registry u = alookup st.store.twins u := by
          rw [hlk u]
          unfold storeLookup
          rw [if_neg htw]
        rw [this]
      · by_cases hun : u = Uuid.nil
        · subst hun
          rw [alookup_entryInsert_ne _ _ _ _ _ hu]
          rw [hlk Uuid.nil]
          unfold storeLookup
          rw [if_pos rfl, if_pos rfl]
        · rw [alookup_entryInsert_ne _ _ _ _ _ hu]
          rw [hlk u]
          unfold storeLookup
          rw [if_neg hun, if_neg hun]
          rw [alookup_entryInsert_ne _ _ _ _ _ hu]

theorem apply_upserts_syncInv (ops : List (Uuid × ToolSchema)) :
    syncInv (apply_upserts initialState ops) := by
  have hgen : ∀ (l : List (Uuid × ToolSchema)) (st : GatewayState), syncInv st →
      syncInv (apply_upserts st l) := by
    intro l
    induction l with
    | nil => intro st h; exact h
    | cons p rest ih =>
      intro st h
      exact ih _ (upsert_preserves_syncInv st p.1 p.2 h)
  apply hgen
  refine ⟨⟨List.nodup_nil, List.nodup_nil, by intro g hg; cases hg⟩, rfl, ?_⟩
  intro u
  unfold storeLookup
  by_cases hu : u = Uuid.nil
  · subst hu; rfl
  · rw [if_neg hu]; rfl

theorem upsert_nil_preserves (st : GatewayState) (tool : ToolSchema) (u : Uuid)
    (hu : u ≠ Uuid.nil) :
    alookup (upsert_tool st Uuid.nil tool).1.registry u = alookup st.registry u ∧
    (upsert_tool st Uuid.nil tool).1.store.twins = st.store.twins := by
  by_cases hav : st.store.available = true
  · have hres : upsert_tool st Uuid.nil tool
        = ({ registry := entryInsert st.registry Uuid.nil tool.name tool,
             store := { st.store with global := ainsert st.store.global tool.name tool } },
           Except.ok ()) := by
      simp [upsert_tool, persist_tool, hav]
    rw [hres]
    exact ⟨alookup_entryInsert_ne _ _ _ _ _ hu, rfl⟩
  · have hav' : st.store.available = false := by
      cases h2 : st.store.available
      · rfl
      · exact absurd h2 hav
    have hres : upsert_tool st Uuid.nil tool
        = ({ st with registry := entryInsert st.registry Uuid.nil tool.name tool },
           Except.error "redis connection failed") := by
      simp [upsert_tool, persist_tool, hav']
    rw [hres]
    exact ⟨alookup_entryInsert_ne _ _ _ _ _ hu, rfl⟩

/-- States relata for the scope-preservation argument: equal registry group at
`u` and equal per-twin store namespaces. -/
def ScopePreserved (u : Uuid) (a b : GatewayState) : Prop :=
  alookup a.registry u = alookup b.registry u ∧ a.store.twins = b.store.twins

theorem scopePreserved_trans (u : Uuid) (a b c : GatewayState)
    (h1 : ScopePreserved u a b) (h2 : ScopePreserved u b c) : ScopePreserved u a c :=
  ⟨h1.1.trans h2.1, h1.2.trans h2.2⟩

theorem foldl_scopePreserved {β : Type} (u : Uuid)
    (f : (GatewayState × Nat) → β → (GatewayState × Nat))
    (hstep : ∀ acc t, ScopePreserved u ((f acc t).1) acc.1) :
    ∀ (l : List β) (acc : GatewayState × Nat), ScopePreserved u ((l.foldl f acc).1) acc.1
  | [], acc => ⟨rfl, rfl⟩
  | t :: rest, acc => by
    have h1 := foldl_scopePreserved u f hstep rest (f acc t)
    have h2 := hstep acc t
    exact scopePreserved_trans u _ _ _ h1 h2

theorem registerToolsLoop_nil_preserves (tools : List ToolSchema) (st : GatewayState)
    (locator : String) (u : Uuid) (hu : u ≠ Uuid.nil) :
    ScopePreserved u (registerToolsLoop st Uuid.nil tools locator).1 st := by
  have hstep : ∀ (acc : GatewayState × Nat) (tool : ToolSchema),
      ScopePreserved u
        ((let tool := { tool with plugin_url := locator }
          match upsert_tool acc.1 Uuid.nil tool with
          | (st, Except.ok _) => (st, acc.2 + 1)
          | (st, Except.error _) => (st, acc.2)).1) acc.1 := by
    intro acc tool
    rcases hres : upsert_tool acc.1 Uuid.nil { tool with plugin_url := locator } with ⟨st', r⟩
    have hp := upsert_nil_preserves acc.1 { tool with plugin_url := locator } u hu
    rw [hres] at hp
    cases r with
    | ok _ => simpa [hres] using hp
    | error _ => simpa [hres] using hp
  exact foldl_scopePreserved u _ hstep tools (st, 0)

theorem toU64_lt (v : Int) : toU64 v < 2 ^ 64 := by
  unfold toU64
  have h1 : 0 ≤ v % ((2 : Int) ^ 64) := Int.emod_nonneg v (by norm_num)
  have h2 : v % ((2 : Int) ^ 64) < (2 : Int) ^ 64 := Int.emod_lt_of_pos v (by norm_num)
  have hpow : ((2 : Int) ^ 64) = 18446744073709551616 := by norm_num
  rw [hpow] at h1 h2
  have hpn : (2 : Nat) ^ 64 = 18446744073709551616 := by norm_num
  rw [hpn]
  omega

theorem toI32_emod (n : Nat) (h : n < 2 ^ 32) : toI32 n % ((2 : Int) ^ 32) = (n : Int) := by
  have h' : n < 4294967296 := by
    have hpn : (2 : Nat) ^ 32 = 4294967296 := by norm_num
    rw [hpn] at h
    exact h
  have hn' : (n : Int) < 4294967296 := by exact_mod_cast h'
  have hpow : ((2 : Int) ^ 32) = 4294967296 := by norm_num
  unfold toI32
  split
  · rename_i hlt
    have hpl : (2 : Nat) ^ 31 = 2147483648 := by norm_num
    rw [hpl] at hlt
    have hlt' : (n : Int) < 2147483648 := by exact_mod_cast hlt
    rw [hpow]
    omega
  · rename_i hge
    have hpl : (2 : Nat) ^ 31 = 2147483648 := by norm_num
    rw [hpl] at hge
    have hge' : (2147483648 : Int) ≤ (n : Int) := by exact_mod_cast Nat.le_of_not_lt hge
    rw [hpow]
    omega

/-- Whether an `Except` result is a success. -/
def exceptOk {ε α : Type} : Except ε α → Bool
  | Except.ok _ => true
  | Except.error _ => false

/-- A sample tool registration. -/
def toolA : ToolSchema :=
  { name := "echo", description := "sample", plugin_url := "http://backend:9000",
    endpoint := "/run", parameters := Json.null }

/-- A gateway whose persistent store is unreachable. -/
def downState : GatewayState :=
  { registry := [], store := { available := false, global := [], twins := [] } }

/-- C1 counterexample: with the store unreachable, `upsert_tool` returns the
store error, yet the tool IS present in the in-memory registry afterwards — the
in-memory write was applied first and is not rolled back, contradicting the
claim that the in-memory registry is left unchanged. -/
theorem upsert_rollback_counterexample :
    (upsert_tool downState Uuid.nil toolA).2 = Except.error "redis connection failed" ∧
    lookupIn (upsert_tool downState Uuid.nil toolA).1.registry Uuid.nil "echo" = some toolA ∧
    lookupIn downState.registry Uuid.nil "echo" = none :=
  ⟨rfl, rfl, rfl⟩

/-- C1 (amended): when the persistent write fails, `upsert_tool` surfaces the
store error to its caller, but the in-memory insertion has already been applied
and is not rolled back, and the persistent store is unchanged — so the
in-memory map and the store diverge beyond the call. -/
theorem upsert_store_failure_keeps_memory_write (st : GatewayState) (twin : Uuid)
    (tool : ToolSchema) (h : st.store.available = false) :
    (upsert_tool st twin tool).2 = Except.error "redis connection failed" ∧
    (upsert_tool st twin tool).1.registry = entryInsert st.registry twin tool.name tool ∧
    (upsert_tool st twin tool).1.store = st.store := by
  refine ⟨?_, ?_, ?_⟩ <;> simp [upsert_tool, persist_tool, h]

/-- Witness for C1 at a concrete unreachable-store state. -/
theorem upsert_store_failure_keeps_memory_write_witness :
    (upsert_tool downState Uuid.nil toolA).2 = Except.error "redis connection failed" ∧
    (upsert_tool downState Uuid.nil toolA).1.registry
      = entryInsert downState.registry Uuid.nil toolA.name toolA ∧
    (upsert_tool downState Uuid.nil toolA).1.store = downState.store :=
  upsert_store_failure_keeps_memory_write downState Uuid.nil toolA rfl

/-- A strict signature configuration with no verification key. -/
def strictNoKeyCfg : DiscoverConfig := { verify_env := some "strict", pubkey := none }

/-- A `ConfigOnly` plugin directory with a well-formed manifest. -/
def plugin0 : PluginDirEnv :=
  { manifestParse := Except.ok
      { plugin := { name := "p", version := "1", plugin_type := PluginType.ConfigOnly,
                    binary_path := none, lib_path := none, wasm_path := none,
                    wasm_component_path := none, plugin_url := some "http://p:1" },
        tools := [] },
    sigExists := false, sigVerifyOk := false, moduleExists := false,
    canonicalPath := "", registeredTools := Except.ok [] }

/-- A startup environment where Redis and the TCP bind succeed. -/
def envUp : MainEnv :=
  { redis_open_ok := true, bind_ok := true,
    store := { available := true, global := [], twins := [] } }

/-- C2 counterexample: with strict mode requested and no key configured, the
process still starts (`main` never inspects the signature configuration);
the configuration error surfaces as a per-plugin registration failure inside
the scan, and the scan continues past it — both plugins of the cycle are
processed — contradicting the claim that this is fatal to process start. -/
theorem strict_mode_not_fatal_counterexample :
    exceptOk (main_startup envUp strictNoKeyCfg) = true ∧
    (register_plugin_from_manifest strictNoKeyCfg initialState plugin0 true).2
      = Except.error
          "PAGI_PLUGIN_VERIFY_SIGNATURES=strict but PAGI_PLUGIN_COSIGN_PUBKEY is not set" ∧
    (scan_and_register_plugins strictNoKeyCfg initialState [plugin0, plugin0] true).2.2.length
      = 2 :=
  ⟨by decide, rfl, by decide⟩

/-- C2 (amended): requesting strict signature verification without a configured
key causes every plugin registration of a scan cycle to fail with a
configuration error (the plugin is skipped, the state untouched), while the
outcome of process startup is unaffected by the signature configuration — it
is a per-plugin registration failure, not a startup error. -/
theorem strict_mode_no_key_per_plugin_error (cfg : DiscoverConfig) (st : GatewayState)
    (p : PluginDirEnv) (b : Bool) (env : MainEnv)
    (hstrict : plugin_signature_mode cfg.verify_env = SignatureMode.Strict)
    (hnokey : cfg.pubkey = none) :
    register_plugin_from_manifest cfg st p b
      = (st, Except.error
          "PAGI_PLUGIN_VERIFY_SIGNATURES=strict but PAGI_PLUGIN_COSIGN_PUBKEY is not set") ∧
    exceptOk (main_startup env cfg) = (env.redis_open_ok && env.bind_ok) := by
  constructor
  · unfold register_plugin_from_manifest
    rw [hstrict, hnokey]
    rfl
  · unfold main_startup
    cases hr : env.redis_open_ok with
    | false => simp [exceptOk]
    | true =>
      cases hb : env.bind_ok with
      | false => simp [exceptOk]
      | true => simp [exceptOk]

/-- Witness for C2 at the concrete strict/no-key configuration. -/
theorem strict_mode_no_key_per_plugin_error_witness :
    register_plugin_from_manifest strictNoKeyCfg initialState plugin0 true
      = (initialState, Except.error
          "PAGI_PLUGIN_VERIFY_SIGNATURES=strict but PAGI_PLUGIN_COSIGN_PUBKEY is not set") ∧
    exceptOk (main_startup envUp strictNoKeyCfg) = (envUp.redis_open_ok && envUp.bind_ok) :=
  strict_mode_no_key_per_plugin_error strictNoKeyCfg initialState plugin0 true envUp
    (by decide) rfl

/-- A tool registered at a specific scope. -/
def toolS : ToolSchema :=
  { name := "n", description := "scoped", plugin_url := "http://scoped",
    endpoint := "/s", parameters := Json.null }

/-- A tool of the same name registered at the global scope. -/
def toolG : ToolSchema :=
  { name := "n", description := "global", plugin_url := "http://global",
    endpoint := "/g", parameters := Json.null }

/-- A non-nil scope. -/
def scopeA : Uuid := ⟨1⟩

/-- Another non-nil scope with no registration of its own. -/
def scopeB : Uuid := ⟨2⟩

/-- A registry with `n` registered both at `scopeA` and globally. -/
def regShadow : Registry := [(scopeA, [("n", toolS)]), (Uuid.nil, [("n", toolG)])]

/-- C3: scope shadowing of the dispatcher lookup — a name registered at the
caller's scope shadows the global registration; a scope without its own
registration falls back to the global one; a name registered nowhere reachable
resolves to `none` (the dispatcher's 404 `NotFound` path). -/
theorem scope_shadowing_lookup (reg : Registry) (N : String) :
    (∀ (S : Uuid) (tS tG : ToolSchema), lookupIn reg S N = some tS →
      lookupIn reg Uuid.nil N = some tG → lookupTool reg S N = some tS) ∧
    (∀ (S' : Uuid) (tG : ToolSchema), lookupIn reg S' N = none →
      lookupIn reg Uuid.nil N = some tG → lookupTool reg S' N = some tG) ∧
    (∀ (S : Uuid), lookupIn reg S N = none → lookupIn reg Uuid.nil N = none →
      lookupTool reg S N = none) := by
  refine ⟨?_, ?_, ?_⟩
  · intro S tS tG h1 _
    simp [lookupTool, h1]
  · intro S' tG h1 h2
    simp [lookupTool, h1, h2]
  · intro S h1 h2
    simp [lookupTool, h1, h2]

/-- Witness for C3 on a concrete shadowing registry. -/
theorem scope_shadowing_lookup_witness :
    lookupTool regShadow scopeA "n" = some toolS ∧
    lookupTool regShadow scopeB "n" = some toolG ∧
    lookupTool regShadow scopeA "missing" = none :=
  ⟨(scope_shadowing_lookup regShadow "n").1 scopeA toolS toolG rfl rfl,
   (scope_shadowing_lookup regShadow "n").2.1 scopeB toolG rfl rfl,
   (scope_shadowing_lookup regShadow "missing").2.2 scopeA rfl rfl⟩

/-- C4: backend routing is decided solely by the locator prefix at the
dispatcher — `sharedlib://` locators go to the native executor, `wasm://` to
the legacy WebAssembly executor, `wasm-component://` or `component://` to the
WASI component executor, and locators matching none of these (plain
`http(s)://` URLs included) fall through to the HTTP proxy; in particular a
`sharedlib://` tool is never routed to the HTTP executor and vice versa. -/
theorem backend_routing (env : ExecEnv) (reg : Registry) (twin : Uuid)
    (tool_name : String) (params : Json) (tool : ToolSchema)
    (hres : lookupTool reg twin tool_name = some tool) :
    (startsB tool.plugin_url "sharedlib://" = true →
      execute_tool env reg twin tool_name params
        = pluginBranch tool_name
            (env.sharedLibExec (restOf tool.plugin_url "sharedlib://")
              tool.endpoint params)) ∧
    (startsB tool.plugin_url "wasm://" = true →
      execute_tool env reg twin tool_name params
        = pluginBranch tool_name
            (env.wasmExec (restOf tool.plugin_url "wasm://") tool.endpoint params)) ∧
    (startsB tool.plugin_url "wasm-component://" = true →
      execute_tool env reg twin tool_name params
        = pluginBranch tool_name
            (env.componentExec (restOf tool.plugin_url "wasm-component://")
              tool.endpoint params)) ∧
    (startsB tool.plugin_url "component://" = true →
      execute_tool env reg twin tool_name params
        = pluginBranch tool_name
            (env.componentExec (restOf tool.plugin_url "component://")
              tool.endpoint params)) ∧
    (startsB tool.plugin_url "sharedlib://" = false →
      startsB tool.plugin_url "wasm://" = false →
      startsB tool.plugin_url "wasm-component://" = false →
      startsB tool.plugin_url "component://" = false →
      execute_tool env reg twin tool_name params
        = httpBranch env tool tool_name params) := by
  refine ⟨?_, ?_, ?_, ?_, ?_⟩
  · intro h1
    unfold execute_tool
    rw [hres]
    simp [stripStart, h1]
  · intro h2
    have hsl : startsB tool.plugin_url "sharedlib://" = false :=
      startsB_excl tool.plugin_url "wasm://" "sharedlib://" h2 (by decide) (by decide)
    unfold execute_tool
    rw [hres]
    simp [stripStart, h2, hsl]
  · intro h3
    have hsl : startsB tool.plugin_url "sharedlib://" = false :=
      startsB_excl tool.plugin_url "wasm-component://" "sharedlib://" h3
        (by decide) (by decide)
    have hw : startsB tool.plugin_url "wasm://" = false :=
      startsB_excl tool.plugin_url "wasm-component://" "wasm://" h3 (by decide) (by decide)
    unfold execute_tool
    rw [hres]
    simp [stripStart, h3, hsl, hw, Option.orElse]
  · intro h4
    have hsl : startsB tool.plugin_url "sharedlib://" = false :=
      startsB_excl tool.plugin_url "component://" "sharedlib://" h4 (by decide) (by decide)
    have hw : startsB tool.plugin_url "wasm://" = false :=
      startsB_excl tool.plugin_url "component://" "wasm://" h4 (by decide) (by decide)
    have hwc : startsB tool.plugin_url "wasm-component://" = false :=
      startsB_excl tool.plugin_url "component://" "wasm-component://" h4
        (by decide) (by decide)
    unfold execute_tool
    rw [hres]
    simp [stripStart, h4, hsl, hw, hwc, Option.orElse]
  · intro h5 h6 h7 h8
    unfold execute_tool
    rw [hres]
    simp [stripStart, h5, h6, h7, h8, Option.orElse]

/-- Executor environment whose four backends are all distinguishable stubs. -/
def envW : ExecEnv :=
  { sharedLibExec := fun _ _ _ => Except.ok "native",
    wasmExec := fun _ _ _ => Except.ok "wasm",
    componentExec := fun _ _ _ => Except.ok "component",
    httpPost := fun _ _ => Except.error { isTimeout := false, msg := "unreachable" } }

/-- A tool whose locator selects the native-library backend. -/
def toolSL : ToolSchema :=
  { name := "sl", description := "native tool", plugin_url := "sharedlib:///lib/pagi/x.so",
    endpoint := "run_tool", parameters := Json.null }

/-- A registry holding `toolSL` at the global scope. -/
def regRoute : Registry := [(Uuid.nil, [("sl", toolSL)])]

/-- Witness for C4: the concrete `sharedlib://` tool is dispatched to the
native executor. -/
theorem backend_routing_witness :
    startsB toolSL.plugin_url "sharedlib://" = true ∧
    execute_tool envW regRoute Uuid.nil "sl" Json.null
      = pluginBranch "sl"
          (envW.sharedLibExec (restOf toolSL.plugin_url "sharedlib://")
            toolSL.endpoint Json.null) :=
  ⟨by decide,
   (backend_routing envW regRoute Uuid.nil "sl" Json.null toolSL rfl).1 (by decide)⟩

theorem pluginBranch_events (tool_name : String) (r : Except String String) :
    (∃ status, MetricEvent.counter "pagi_tool_executions_total" tool_name status
        ∈ (pluginBranch tool_name r).2 ∧ (status = "success" ∨ status = "error")) ∧
    MetricEvent.histogram "pagi_tool_execution_duration_seconds" tool_name
      ∈ (pluginBranch tool_name r).2 := by
  cases r with
  | ok v =>
    exact ⟨⟨"success", by simp [pluginBranch], Or.inl rfl⟩, by simp [pluginBranch]⟩
  | error e =>
    exact ⟨⟨"error", by simp [pluginBranch], Or.inr rfl⟩, by simp [pluginBranch]⟩

theorem httpBranch_events (env : ExecEnv) (tool : ToolSchema) (tool_name : String)
    (params : Json) :
    (∃ status, MetricEvent.counter "pagi_tool_executions_total" tool_name status
        ∈ (httpBranch env tool tool_name params).2 ∧
        (status = "success" ∨ status = "error")) ∧
    MetricEvent.histogram "pagi_tool_execution_duration_seconds" tool_name
      ∈ (httpBranch env tool tool_name params).2 := by
  cases hp : env.httpPost (joinUrl tool) params with
  | error e =>
    refine ⟨⟨"error", ?_, Or.inr rfl⟩, ?_⟩ <;> simp [httpBranch, hp]
  | ok resp =>
    cases hb : resp.body with
    | error re =>
      refine ⟨⟨"error", ?_, Or.inr rfl⟩, ?_⟩ <;> simp [httpBranch, hp, hb]
    | ok text =>
      by_cases hs : isSuccessStatus resp.status = true
      · refine ⟨⟨"success", ?_, Or.inl rfl⟩, ?_⟩ <;> simp [httpBranch, hp, hb, hs]
      · refine ⟨⟨"error", ?_, Or.inr rfl⟩, ?_⟩ <;> simp [httpBranch, hp, hb, hs]

theorem execute_tool_some (env : ExecEnv) (reg : Registry) (twin : Uuid)
    (tool_name : String) (params : Json) (tool : ToolSchema)
    (hres : lookupTool reg twin tool_name = some tool) :
    execute_tool env reg twin tool_name params
      = match stripStart tool.plugin_url "sharedlib://" with
        | some lib_path =>
          pluginBranch tool_name (env.sharedLibExec lib_path tool.endpoint params)
        | none =>
          match stripStart tool.plugin_url "wasm://" with
          | some wasm_path =>
            pluginBranch tool_name (env.wasmExec wasm_path tool.endpoint params)
          | none =>
            match (stripStart tool.plugin_url "wasm-component://").orElse
                (fun _ => stripStart tool.plugin_url "component://") with
            | some comp_path =>
              pluginBranch tool_name (env.componentExec comp_path tool.endpoint params)
            | none => httpBranch env tool tool_name params := by
  unfold execute_tool
  rw [hres]

/-- C5 counterexample: for a `not_found` outcome the dispatcher emits exactly
one counter event named `pagi_tool_executions_total` and records no latency
histogram at all — contradicting both the claimed metric names
(`tool_executions_total`, unprefixed) and the claim that every outcome,
`not_found` included, also emits the histogram. -/
theorem metrics_not_found_counterexample :
    (execute_tool envW [] Uuid.nil "ghost" Json.null).2
      = [MetricEvent.counter "pagi_tool_executions_total" "ghost" "not_found"] ∧
    (∀ n, MetricEvent.histogram n "ghost"
      ∉ (execute_tool envW [] Uuid.nil "ghost" Json.null).2) ∧
    (∀ status, MetricEvent.counter "tool_executions_total" "ghost" status
      ∉ (execute_tool envW [] Uuid.nil "ghost" Json.null).2) := by
  have hev : (execute_tool envW [] Uuid.nil "ghost" Json.null).2
      = [MetricEvent.counter "pagi_tool_executions_total" "ghost" "not_found"] := rfl
  refine ⟨hev, ?_, ?_⟩
  · intro n hmem
    rw [hev] at hmem
    rcases List.mem_singleton.mp hmem with h
    exact MetricEvent.noConfusion h
  · intro status hmem
    rw [hev] at hmem
    rcases List.mem_singleton.mp hmem with h
    injection h with h1 h2 h3
    exact (by decide : ¬("tool_executions_total" = "pagi_tool_executions_total")) h1

/-- C5 (amended): every invocation of the dispatcher emits the monotonic
counter `pagi_tool_executions_total` keyed by tool name and outcome
(`success`/`error`/`not_found`); every invocation that resolves a tool also
records the latency histogram `pagi_tool_execution_duration_seconds` keyed by
tool name; a `not_found` outcome emits only its counter and no histogram. -/
theorem metrics_on_every_invocation (env : ExecEnv) (reg : Registry) (twin : Uuid)
    (tool_name : String) (params : Json) :
    (∃ status, MetricEvent.counter "pagi_tool_executions_total" tool_name status
        ∈ (execute_tool env reg twin tool_name params).2 ∧
        (status = "success" ∨ status = "error" ∨ status = "not_found")) ∧
    (lookupTool reg twin tool_name ≠ none →
      MetricEvent.histogram "pagi_tool_execution_duration_seconds" tool_name
        ∈ (execute_tool env reg twin tool_name params).2) ∧
    (lookupTool reg twin tool_name = none →
      (execute_tool env reg twin tool_name params).2
        = [MetricEvent.counter "pagi_tool_executions_total" tool_name "not_found"]) := by
  cases hres : lookupTool reg twin tool_name with
  | none =>
    refine ⟨⟨"not_found", ?_, Or.inr (Or.inr rfl)⟩, ?_, ?_⟩
    · unfold execute_tool
      rw [hres]
      simp
    · intro h
      exact absurd rfl h
    · intro _
      unfold execute_tool
      rw [hres]
  | some tool =>
    have hmain :
        (∃ status, MetricEvent.counter "pagi_tool_executions_total" tool_name status
            ∈ (execute_tool env reg twin tool_name params).2 ∧
            (status = "success" ∨ status = "error")) ∧
        MetricEvent.histogram "pagi_tool_execution_duration_seconds" tool_name
          ∈ (execute_tool env reg twin tool_name params).2 := by
      rw [execute_tool_some env reg twin tool_name params tool hres]
      cases h1 : stripStart tool.plugin_url "sharedlib://" with
      | some p => exact pluginBranch_events tool_name _
      | none =>
        cases h2 : stripStart tool.plugin_url "wasm://" with
        | some p => exact pluginBranch_events tool_name _
        | none =>
          cases h3 : (stripStart tool.plugin_url "wasm-component://").orElse
              (fun _ => stripStart tool.plugin_url "component://") with
          | some p => exact pluginBranch_events tool_name _
          | none => exact httpBranch_events env tool tool_name params
    obtain ⟨⟨s, hs1, hs2⟩, hh⟩ := hmain
    refine ⟨⟨s, hs1, ?_⟩, fun _ => hh, fun hnone => ?_⟩
    · rcases hs2 with h | h
      · exact Or.inl h
      · exact Or.inr (Or.inl h)
    · exact Option.noConfusion hnone

/-- Witness for C5 at a resolved tool: the histogram event is emitted. -/
theorem metrics_on_every_invocation_witness :
    MetricEvent.histogram "pagi_tool_execution_duration_seconds" "sl"
      ∈ (execute_tool envW regRoute Uuid.nil "sl" Json.null).2 :=
  (metrics_on_every_invocation envW regRoute Uuid.nil "sl" Json.null).2.1
    (by intro h
        rw [show lookupTool regRoute Uuid.nil "sl" = some toolSL from rfl] at h
        exact Option.noConfusion h)

/-- An executor environment whose HTTP backend rejects with a 400 response. -/
def envRejected : ExecEnv :=
  { sharedLibExec := fun _ _ _ => Except.error "no",
    wasmExec := fun _ _ _ => Except.error "no",
    componentExec := fun _ _ _ => Except.error "no",
    httpPost := fun _ _ => Except.ok { status := 400, body := Except.ok "bad" } }

/-- A tool registered against the HTTP backend. -/
def toolHttp : ToolSchema :=
  { name := "h", description := "http tool", plugin_url := "http://backend",
    endpoint := "e", parameters := Json.null }

/-- A registry holding `toolHttp` at the global scope. -/
def regHttp : Registry := [(Uuid.nil, [("h", toolHttp)])]

/-- C6 counterexample: a backend rejection with status 400 is surfaced to the
gateway caller with status 400 — the backend status is passed through, so the
status returned for a rejected backend is not restricted to 502 or 504. -/
theorem http_status_passthrough_counterexample :
    (execute_tool envRejected regHttp Uuid.nil "h" Json.null).1.statusCode = 400 ∧
    ¬((execute_tool envRejected regHttp Uuid.nil "h" Json.null).1.statusCode = 502 ∨
      (execute_tool envRejected regHttp Uuid.nil "h" Json.null).1.statusCode = 504) := by
  constructor
  · rfl
  · intro h
    rcases h with h | h <;> exact absurd h (by decide)

/-- C6 (amended): for the HTTP backend, a 2xx response passes the body through
verbatim as the tool result (returned with 200); a non-2xx response is an
error whose message carries the backend status and body, and whose HTTP status
is the backend's own status (passed through, not mapped to 502/504); a
transport failure (unreachable backend) is returned as 502. -/
theorem http_backend_contract (env : ExecEnv) (tool : ToolSchema) (tool_name : String)
    (params : Json) :
    (∀ resp text, env.httpPost (joinUrl tool) params = Except.ok resp →
      resp.body = Except.ok text →
      (isSuccessStatus resp.status = true →
        (httpBranch env tool tool_name params).1 = ExecResponse.ok text) ∧
      (isSuccessStatus resp.status = false →
        (httpBranch env tool tool_name params).1
          = ExecResponse.err resp.status
              ("plugin returned " ++ toString resp.status ++ ": " ++ text))) ∧
    (∀ e, env.httpPost (joinUrl tool) params = Except.error e →
      (httpBranch env tool tool_name params).1 = ExecResponse.err 502 e.msg) := by
  constructor
  · intro resp text hp hb
    constructor
    · intro hs
      simp [httpBranch, hp, hb, hs]
    · intro hs
      simp [httpBranch, hp, hb, hs]
  · intro e hp
    simp [httpBranch, hp]

/-- Witness for C6 at the concrete rejecting backend. -/
theorem http_backend_contract_witness :
    (httpBranch envRejected toolHttp "h" Json.null).1
      = ExecResponse.err 400 ("plugin returned " ++ toString 400 ++ ": " ++ "bad") :=
  ((http_backend_contract envRejected toolHttp "h" Json.null).1
    { status := 400, body := Except.ok "bad" } "bad" rfl rfl).2 rfl

/-- C7: rehydration round trip — starting from a fresh gateway, after any
sequence of successful upserts, rebuilding the in-memory registry from the
persistent store (`load_all_tools`, as `main` does at startup) yields a
registry whose per-scope groups and whose `list` results agree with the
pre-restart registry at every scope. -/
theorem rehydration_round_trip (ops : List (Uuid × ToolSchema)) (u : Uuid) :
    alookup (rehydrate (apply_upserts initialState ops).store) u
      = alookup (apply_upserts initialState ops).registry u ∧
    list_tools_for_twin (rehydrate (apply_upserts initialState ops).store) u
      = list_tools_for_twin (apply_upserts initialState ops).registry u := by
  obtain ⟨hwf, hav, hlk⟩ := apply_upserts_syncInv ops
  have h1 : ∀ v, alookup (rehydrate (apply_upserts initialState ops).store) v
      = alookup (apply_upserts initialState ops).registry v := by
    intro v
    rw [rehydrate_alookup _ hwf hav v, hlk v]
  refine ⟨h1 u, ?_⟩
  unfold list_tools_for_twin
  rw [h1 u, h1 Uuid.nil]

/-- C8: FFI round trip — serializing the parameters and calling a library
whose entry-point symbol echoes its input C string returns exactly the
serialized parameters JSON, and a library whose entry point returns a NULL
pointer yields the protocol-violation error result (no crash: the executor is
a total function into `Except`). -/
theorem ffi_round_trip (symbol_name : String) (params : Json) :
    (∀ lib : LibModel, lib.resolve symbol_name = some (fun s => some s) →
      SharedLib.execute_tool lib symbol_name params
        = Except.ok (Json.serialize params)) ∧
    (∀ lib : LibModel, lib.resolve symbol_name = some (fun _ => none) →
      SharedLib.execute_tool lib symbol_name params
        = Except.error ("tool " ++ symbol_name ++ " returned NULL")) := by
  have hc : cstring_new (Json.serialize params) = Except.ok (Json.serialize params) := by
    unfold cstring_new
    rw [serialize_no_nul params]
    rfl
  constructor
  · intro lib hres
    simp [SharedLib.execute_tool, hc, hres]
  · intro lib hres
    simp [SharedLib.execute_tool, hc, hres]

/-- A native library whose entry points echo their input C string. -/
def libEcho : LibModel := { resolve := fun _ => some (fun s => some s), hasFreeHook := true }

/-- A native library whose entry points return NULL. -/
def libNull : LibModel := { resolve := fun _ => some (fun _ => none), hasFreeHook := false }

/-- Witness for C8 on concrete echo and NULL-returning libraries. -/
theorem ffi_round_trip_witness :
    SharedLib.execute_tool libEcho "run" (Json.str "hi") = Except.ok "\"hi\"" ∧
    SharedLib.execute_tool libNull "run" Json.null
      = Except.error ("tool " ++ "run" ++ " returned NULL") :=
  ⟨(ffi_round_trip "run" (Json.str "hi")).1 libEcho rfl,
   (ffi_round_trip "run" Json.null).2 libNull rfl⟩

/-- C9: the packed 64-bit WebAssembly return value decodes into the output
pointer from its high 32 bits and the output length from its low 32 bits
(reinterpreted as signed 32-bit integers), and whenever the decoded pointer or
length is zero or negative the executor returns the protocol-violation error
before any guest-memory read (the conclusion holds for every memory model
`m.memRead`). -/
theorem wasm_packed_return_contract (m : WasmEnv) (symbol_name : String) (params : Json)
    (tool_fn : Int → Int → Except String Int) (in_ptr ret : Int)
    (hmem : m.hasMemory = true) (halloc : m.hasAlloc = true) (hdealloc : m.hasDealloc = true)
    (hexp : m.toolExport symbol_name = some tool_fn)
    (halloc_ok : m.allocFn ((Json.serialize params).utf8ByteSize : Int) = Except.ok in_ptr)
    (hwrite : m.memWrite in_ptr (Json.serialize params) = Except.ok ())
    (hcall : tool_fn in_ptr ((Json.serialize params).utf8ByteSize : Int) = Except.ok ret) :
    ((pack_u64_to_i32_pair ret).1 % ((2 : Int) ^ 32) = ((toU64 ret / 2 ^ 32 : Nat) : Int) ∧
     (pack_u64_to_i32_pair ret).2 % ((2 : Int) ^ 32) = ((toU64 ret % 2 ^ 32 : Nat) : Int)) ∧
    ((pack_u64_to_i32_pair ret).1 ≤ 0 ∨ (pack_u64_to_i32_pair ret).2 ≤ 0 →
      WasmPlugin.execute_tool m symbol_name params
        = Except.error "tool returned empty output") := by
  constructor
  · constructor
    · unfold pack_u64_to_i32_pair
      apply toI32_emod
      have h64 := toU64_lt ret
      have hsplit : (2 : Nat) ^ 64 = 2 ^ 32 * 2 ^ 32 := by norm_num
      rw [hsplit] at h64
      exact Nat.div_lt_of_lt_mul h64
    · unfold pack_u64_to_i32_pair
      apply toI32_emod
      exact Nat.mod_lt _ (by norm_num)
  · intro hguard
    simp [WasmPlugin.execute_tool, hmem, halloc, hdealloc, hexp, halloc_ok, hwrite,
      hcall, hguard]

/-- A WebAssembly module whose tool export returns the packed value 0. -/
def wasmZero : WasmEnv :=
  { hasMemory := true, hasAlloc := true, hasDealloc := true,
    toolExport := fun _ => some (fun _ _ => Except.ok 0),
    allocFn := fun _ => Except.ok 16,
    memWrite := fun _ _ => Except.ok (),
    memRead := fun _ _ => Except.ok "out" }

/-- Witness for C9: a zero packed return is rejected as empty output. -/
theorem wasm_packed_return_contract_witness :
    WasmPlugin.execute_tool wasmZero "run" Json.null
      = Except.error "tool returned empty output" :=
  (wasm_packed_return_contract wasmZero "run" Json.null (fun _ _ => Except.ok 0) 16 0
    rfl rfl rfl rfl rfl rfl rfl).2 (by decide)

/-- C10: every tool upserted by the auto-discovery watcher goes to the global
(nil) scope — both branches of the scope selection yield the global twin id,
so for every non-nil scope `u`, a whole `register_plugin_from_manifest` pass
(any manifest type, any outcome) leaves both the in-memory registry group of
`u` and the per-twin store namespaces untouched. -/
theorem auto_discovery_global_scope (cfg : DiscoverConfig) (st : GatewayState)
    (p : PluginDirEnv) (b : Bool) (u : Uuid) (hu : u ≠ Uuid.nil) :
    chooseTwin b = global_twin_id ∧
    alookup (register_plugin_from_manifest cfg st p b).1.registry u
      = alookup st.registry u ∧
    (register_plugin_from_manifest cfg st p b).1.store.twins = st.store.twins := by
  have hct : chooseTwin b = Uuid.nil := by cases b <;> rfl
  have hloop : ∀ (tools : List ToolSchema) (st' : GatewayState) (loc : String),
      ScopePreserved u (registerToolsLoop st' (chooseTwin b) tools loc).1 st' := by
    intro tools st' loc
    rw [hct]
    exact registerToolsLoop_nil_preserves tools st' loc u hu
  refine ⟨hct, ?_⟩
  show ScopePreserved u (register_plugin_from_manifest cfg st p b).1 st
  unfold register_plugin_from_manifest
  repeat' split
  all_goals first
    | exact ⟨rfl, rfl⟩
    | exact hloop _ _ _

/-- Discovery configuration with signature verification off. -/
def cfgOff : DiscoverConfig := { verify_env := none, pubkey := none }

/-- A `ConfigOnly` plugin declaring one tool. -/
def pluginCfg : PluginDirEnv :=
  { manifestParse := Except.ok
      { plugin := { name := "q", version := "1", plugin_type := PluginType.ConfigOnly,
                    binary_path := none, lib_path := none, wasm_path := none,
                    wasm_component_path := none, plugin_url := some "http://q:2" },
        tools := [{ name := "t1", description := "d", endpoint := "/t",
                    parameters := Json.null }] },
    sigExists := false, sigVerifyOk := false, moduleExists := false,
    canonicalPath := "", registeredTools := Except.ok [] }

/-- Witness for C10: after registering a concrete plugin, the non-nil scope
`scopeA` is untouched in both the registry and the store. -/
theorem auto_discovery_global_scope_witness :
    chooseTwin false = global_twin_id ∧
    alookup (register_plugin_from_manifest cfgOff initialState pluginCfg false).1.registry
        scopeA
      = alookup initialState.registry scopeA ∧
    (register_plugin_from_manifest cfgOff initialState pluginCfg false).1.store.twins
      = initialState.store.twins :=
  auto_discovery_global_scope cfgOff initialState pluginCfg false scopeA (by decide)
